import Mathlib

/-!
Verification development for the color-consistency analysis engine
(`api/v1/analysis_core.py`).

Embedding conventions:
* Python floats are modelled as real numbers (`ℝ`); arithmetic is exact.
* Database integer columns (`selected_r`, `response_ms`, ...) are `Option Int`
  (`None` ↦ `none`).
* A trial's `meta_json` is an association list `List (String × MetaVal)`;
  metadata values are modelled as strings, integers, or flat integer-valued
  objects (the shapes the engine inspects).
* Python exceptions are modelled with `Except String`: a raised exception is
  `Except.error` carrying the message, and every Python function that can
  raise on the inputs the engine passes it returns in `Except`.
* `int(statistics.mean(xs))` for integer `xs` truncates the exact mean toward
  zero, which is `Int.tdiv (sum xs) (length xs)`; `round` (banker's rounding)
  is modelled exactly on `ℚ`.
-/

/-- Metadata values the engine inspects: JSON strings, integers, and flat
objects with integer fields (nested color objects). -/
inductive MetaVal where
  | str (s : String)
  | num (n : Int)
  | obj (fields : List (String × Int))
deriving DecidableEq

/-- One `ColorTrial` row as the analysis reads it. -/
structure Trial where
  id : Option Int
  stimulus_id : Option Int
  trial_index : Option Int
  response_ms : Option Int
  selected_r : Option Int
  selected_g : Option Int
  selected_b : Option Int
  meta_json : Option (List (String × MetaVal))
deriving DecidableEq

/-- Python dict lookup `meta.get(k)`: first binding of `k`, else `none`. -/
def mget (m : List (String × MetaVal)) (k : String) : Option MetaVal :=
  match m with
  | [] => none
  | (k', v) :: rest => if k' = k then some v else mget rest k

/-- Python truthiness of a metadata value: empty string, zero and empty
object are falsy. -/
def truthyV : MetaVal → Bool
  | .str s => s ≠ ""
  | .num n => n ≠ 0
  | .obj o => o ≠ []

/-- Truthiness of `meta.get(k)` (absent key is `None`, falsy). -/
def truthyO : Option MetaVal → Bool
  | none => false
  | some v => truthyV v

/-- Python `x or y` on two lookup results: `x` when truthy, else `y`. -/
def pyOr (x y : Option MetaVal) : Option MetaVal :=
  if truthyO x then x else y

/-- Python `x if x is not None else y` (presence, not truthiness). -/
def pyOrPresent (x y : Option Int) : Option Int :=
  match x with
  | some v => some v
  | none => y

/-- Python `str(value)` for the values `hex_to_rgb` receives.  `str` of a
dict is not reproduced: it always starts with a brace, so it never parses
as hex; the empty string yields the same `none` result. -/
def pyStr : MetaVal → String
  | .str s => s
  | .num n => toString n
  | .obj _ => ""

/-- Value of one hex digit, strictly `0-9a-fA-F`. -/
def hexDigitVal (c : Char) : Option Nat :=
  if '0' ≤ c ∧ c ≤ '9' then some (c.toNat - '0'.toNat)
  else if 'a' ≤ c ∧ c ≤ 'f' then some (c.toNat - 'a'.toNat + 10)
  else if 'A' ≤ c ∧ c ≤ 'F' then some (c.toNat - 'A'.toNat + 10)
  else none

/-- Python `int(two_chars, 16)`.  The tolerance of `int` for sign or space
prefixes inside a two-character slice is not modelled. -/
def hexByteVal (c1 c2 : Char) : Option Int :=
  match hexDigitVal c1, hexDigitVal c2 with
  | some a, some b => some ((16 * a + b : Nat) : Int)
  | _, _ => none

/-- Source `hex_to_rgb(hexstr)`: falsy input is `None`; leading `#` are
stripped; a 3-character string has each character doubled; anything that is
not then exactly 6 hex digits is `None`. -/
def hex_to_rgb (hexstr : MetaVal) : Option (Int × Int × Int) :=
  if truthyV hexstr = false then none
  else
    let s0 := (pyStr hexstr).toList.dropWhile (fun c => c = '#')
    let s := if s0.length = 3 then s0.flatMap (fun c => [c, c]) else s0
    match s with
    | [a, b, c, d, e, f] =>
      match hexByteVal a b, hexByteVal c d, hexByteVal e f with
      | some r, some g, some bl => some (r, g, bl)
      | _, _, _ => none
    | _ => none

/-- The hex-field chain of `trial_rgb_or_none`:
`meta.get("selected_hex") or meta.get("color_hex") or meta.get("hex") or
meta.get("selectedColorHex")` (exact, case-sensitive key names). -/
def hexcOf (meta : List (String × MetaVal)) : Option MetaVal :=
  pyOr (mget meta "selected_hex")
    (pyOr (mget meta "color_hex")
      (pyOr (mget meta "hex") (mget meta "selectedColorHex")))

/-- The nested-object chain of `trial_rgb_or_none`:
`meta.get("selected_color") or meta.get("selectedColor") or meta.get("color")`. -/
def scOf (meta : List (String × MetaVal)) : Option MetaVal :=
  pyOr (mget meta "selected_color")
    (pyOr (mget meta "selectedColor") (mget meta "color"))

/-- Lookup in a nested color object (`sc.get(k)`). -/
def oget (o : List (String × Int)) (k : String) : Option Int :=
  match o with
  | [] => none
  | (k', v) :: rest => if k' = k then some v else oget rest k

/-- Source `trial_rgb_or_none(t)`: direct channels first, then a hex string
under the `hexcOf` chain (decoded only when the chain's value is truthy, a
failed decode falling through), then a nested color object with `r`/`R`/`red`
style fields; else no color. -/
def trial_rgb_or_none (t : Trial) : Option (Int × Int × Int) :=
  match t.selected_r, t.selected_g, t.selected_b with
  | some r, some g, some b => some (r, g, b)
  | _, _, _ =>
    let meta := t.meta_json.getD []
    let hexc := hexcOf meta
    let viaHex : Option (Int × Int × Int) :=
      match hexc with
      | some v => if truthyV v then hex_to_rgb v else none
      | none => none
    match viaHex with
    | some rgb => some rgb
    | none =>
      match scOf meta with
      | some (.obj fields) =>
        let r := pyOrPresent (oget fields "r") (pyOrPresent (oget fields "R") (oget fields "red"))
        let g := pyOrPresent (oget fields "g") (pyOrPresent (oget fields "G") (oget fields "green"))
        let b := pyOrPresent (oget fields "b") (pyOrPresent (oget fields "B") (oget fields "blue"))
        match r, g, b with
        | some rv, some gv, some bv => some (rv, gv, bv)
        | _, _, _ => none
      | _ => none

/-- Source `srgb_channel_to_linear(c)`. -/
noncomputable def srgb_channel_to_linear (c : ℝ) : ℝ :=
  if c ≤ 0.04045 then c / 12.92
  else ((c + 0.055) / 1.055) ^ (2.4 : ℝ)

/-- Source `rgb255_to_linear(rgb)`. -/
noncomputable def rgb255_to_linear (rgb : Int × Int × Int) : ℝ × ℝ × ℝ :=
  (srgb_channel_to_linear ((rgb.1 : ℝ) / 255),
   srgb_channel_to_linear ((rgb.2.1 : ℝ) / 255),
   srgb_channel_to_linear ((rgb.2.2 : ℝ) / 255))

/-- Source `linear_rgb_to_xyz(r_lin, g_lin, b_lin)`: sRGB / D65 matrix. -/
noncomputable def linear_rgb_to_xyz (r_lin g_lin b_lin : ℝ) : ℝ × ℝ × ℝ :=
  (0.4124564 * r_lin + 0.3575761 * g_lin + 0.1804375 * b_lin,
   0.2126729 * r_lin + 0.7151522 * g_lin + 0.0721750 * b_lin,
   0.0193339 * r_lin + 0.1191920 * g_lin + 0.9503041 * b_lin)

/-- Reference white D65 `(Xn, Yn, Zn)`. -/
noncomputable def D65 : ℝ × ℝ × ℝ := (0.95047, 1.00000, 1.08883)

/-- Source `xyz_to_luv(X, Y, Z, white)`. -/
noncomputable def xyz_to_luv (X Y Z : ℝ) (white : ℝ × ℝ × ℝ) : ℝ × ℝ × ℝ :=
  let Xn := white.1
  let Yn := white.2.1
  let Zn := white.2.2
  let denom := X + 15 * Y + 3 * Z
  let u_p := if denom = 0 then 0 else (4 * X) / denom
  let v_p := if denom = 0 then 0 else (9 * Y) / denom
  let denom_n := Xn + 15 * Yn + 3 * Zn
  let u_p_n := if denom_n = 0 then 0 else (4 * Xn) / denom_n
  let v_p_n := if denom_n = 0 then 0 else (9 * Yn) / denom_n
  let yr := if Yn ≠ 0 then Y / Yn else 0
  let L_star :=
    if yr > (6 / 29 : ℝ) ^ (3 : ℕ) then 116 * yr ^ ((1 : ℝ) / 3) - 16
    else (29 / 3 : ℝ) ^ (3 : ℕ) * yr
  (L_star, 13 * L_star * (u_p - u_p_n), 13 * L_star * (v_p - v_p_n))

/-- Source `rgb255_to_luv(rgb)`. -/
noncomputable def rgb255_to_luv (rgb : Int × Int × Int) : ℝ × ℝ × ℝ :=
  let lin := rgb255_to_linear rgb
  let xyz := linear_rgb_to_xyz lin.1 lin.2.1 lin.2.2
  xyz_to_luv xyz.1 xyz.2.1 xyz.2.2 D65

/-- Source `luv_distance(a, b)`: Euclidean distance of Luv triples. -/
noncomputable def luv_distance (a b : ℝ × ℝ × ℝ) : ℝ :=
  Real.sqrt ((a.1 - b.1) ^ 2 + (a.2.1 - b.2.1) ^ 2 + (a.2.2 - b.2.2) ^ 2)

/-- Message of the `ValueError` raised by `mean_pairwise_distance`. -/
def needThreeMsg : String := "Need exactly 3 samples to compute pairwise distances"

/-- Source `mean_pairwise_distance(triples)`: mean of the three pairwise
distances, plus the `(d12, d23, d31)` detail; raises unless given exactly
three points. -/
noncomputable def mean_pairwise_distance (triples : List (ℝ × ℝ × ℝ)) :
    Except String (ℝ × (ℝ × ℝ × ℝ)) :=
  match triples with
  | [a, b, c] =>
    let d12 := luv_distance a b
    let d23 := luv_distance b c
    let d31 := luv_distance c a
    .ok ((d12 + d23 + d31) / 3, (d12, d23, d31))
  | _ => .error needThreeMsg

/-- Message for the `TypeError` Python raises on a dict used as a dict key
(an object-valued `trigger`/`stimulus` metadata entry). -/
def unhashableMsg : String := "TypeError: unhashable type: dict"

/-- Message for the `TypeError` Python would raise unpacking a missing RGB
sample (unreachable: the no-color gate runs first). -/
def unpackNoneMsg : String := "TypeError: cannot unpack NoneType"

/-- The group key of a trial: `t.stimulus_id if t.stimulus_id is not None
else meta.get("trigger") or meta.get("stimulus") or "__unknown__"`.  The key
universe is `MetaVal`, with an integer `stimulus_id` as `.num` so that it
collides with an equal integer metadata trigger exactly as Python dict keys
do. -/
def groupKey (t : Trial) : MetaVal :=
  match t.stimulus_id with
  | some n => .num n
  | none =>
    let meta := t.meta_json.getD []
    match pyOr (mget meta "trigger") (mget meta "stimulus") with
    | some v => if truthyV v then v else .str "__unknown__"
    | none => .str "__unknown__"

/-- Append `t` to the group keyed `k`, preserving first-occurrence order of
keys and insertion order inside a group (Python `defaultdict(list)`). -/
def groupInsert (k : MetaVal) (t : Trial) :
    List (MetaVal × List Trial) → List (MetaVal × List Trial)
  | [] => [(k, [t])]
  | (k', ts) :: rest =>
    if k' = k then (k', ts ++ [t]) :: rest else (k', ts) :: groupInsert k t rest

/-- One step of the grouping loop (`groups[key].append(t)`): a dict-valued
key raises `TypeError`, otherwise the trial joins its key's group. -/
def groupStep (gs : List (MetaVal × List Trial)) (t : Trial) :
    Except String (List (MetaVal × List Trial)) :=
  match groupKey t with
  | .obj _ => .error unhashableMsg
  | k => .ok (groupInsert k t gs)

/-- The grouping loop of `analyze_participant_logic`: groups in key
first-occurrence order. -/
def groupsOfE (trials : List Trial) : Except String (List (MetaVal × List Trial)) :=
  trials.foldlM groupStep []

/-- Python `str(key)` for a group key (an `.obj` key never reaches here). -/
def renderKey : MetaVal → String
  | .str s => s
  | .num n => toString n
  | .obj _ => ""

/-- Per-trigger entry of the result, one of the three statuses. -/
inductive PerTrigger where
  | incomplete (n_trials : Nat)
  | no_color_present (n_trials : Nat) (missing_trial_ids : List (Option Int))
  | ok (mean_d : ℝ) (pairwise : ℝ × ℝ × ℝ) (representative_rgb : Int × Int × Int)
      (representative_hex : String)

/-- Status string of a per-trigger entry. -/
def ptStatus : PerTrigger → String
  | .incomplete _ => "incomplete"
  | .no_color_present _ _ => "no_color_present"
  | .ok _ _ _ _ => "ok"

/-- Python dict assignment `per_trigger[k] = v`: replace in place, else
append. -/
def dictSet (k : String) (v : PerTrigger) :
    List (String × PerTrigger) → List (String × PerTrigger)
  | [] => [(k, v)]
  | (k', v') :: rest =>
    if k' = k then (k, v) :: rest else (k', v') :: dictSet k v rest

/-- Sort key `x.trial_index or 0` (both `None` and `0` give `0`). -/
def idxKey (t : Trial) : Int := t.trial_index.getD 0

/-- Python `sorted(trs, key=lambda x: x.trial_index or 0)`: a stable sort by
`idxKey`; a stable sort is unique given the key order, so insertion sort
equals Python's Timsort here. -/
def sortByIdx (trs : List Trial) : List Trial :=
  List.insertionSort (fun a b => idxKey a ≤ idxKey b) trs

/-- The three considered trials of a group: sorted by `trial_index`, first
three. -/
def consideredOf (trs : List Trial) : List Trial :=
  (sortByIdx trs).take 3

/-- Trial ids of the considered trials lacking a recoverable color
(`[t.id for t in trs_sorted if trial_rgb_or_none(t) is None]`). -/
def missingOf (trs : List Trial) : List (Option Int) :=
  (consideredOf trs).filterMap
    (fun t => if trial_rgb_or_none t = none then some t.id else none)

/-- Python `round` on an exact rational: nearest integer, ties to even. -/
def pyRound (q : ℚ) : Int :=
  let f := Rat.floor q
  let r := q - (f : ℚ)
  if r < 1 / 2 then f
  else if 1 / 2 < r then f + 1
  else if f % 2 = 0 then f else f + 1

/-- Two-digit lowercase hex of a channel (Python `f"{n:02x}"`; a negative
value formats as a minus sign and hex digits). -/
def hex2 (n : Int) : String :=
  if n < 0 then "-" ++ (Nat.toDigits 16 n.natAbs).asString
  else
    let s := (Nat.toDigits 16 n.toNat).asString
    if s.length < 2 then "0" ++ s else s

/-- Mutable state of the per-group loop: `per_trigger`, `none_counts`,
`rt_list` and `valid_trigger_scores`. -/
structure LoopState where
  pt : List (String × PerTrigger)
  none_counts : Nat
  rt_list : List Int
  scores : List ℝ

/-- One iteration of the `for key, trs in groups.items()` loop. -/
noncomputable def processGroup (st : LoopState) (g : MetaVal × List Trial) :
    Except String LoopState :=
  let key := g.1
  let trs := g.2
  if trs.length < 3 then
    .ok ⟨dictSet (renderKey key) (.incomplete trs.length) st.pt,
         st.none_counts, st.rt_list, st.scores⟩
  else
    let trs_sorted := consideredOf trs
    let missing := missingOf trs
    if missing.isEmpty then
      match trs_sorted.mapM
          (fun t =>
            match trial_rgb_or_none t with
            | some rgb => Except.ok rgb
            | none => Except.error unpackNoneMsg) with
      | .error e => .error e
      | .ok rgbs =>
        let luvs := rgbs.map rgb255_to_luv
        match mean_pairwise_distance luvs with
        | .error e => .error e
        | .ok md =>
          let sum_r := (rgbs.map (fun x => x.1)).sum
          let sum_g := (rgbs.map (fun x => x.2.1)).sum
          let sum_b := (rgbs.map (fun x => x.2.2)).sum
          let rep_r := pyRound ((sum_r : ℚ) / 3)
          let rep_g := pyRound ((sum_g : ℚ) / 3)
          let rep_b := pyRound ((sum_b : ℚ) / 3)
          let rep_hex := "#" ++ hex2 rep_r ++ hex2 rep_g ++ hex2 rep_b
          .ok ⟨dictSet (renderKey key)
                 (.ok md.1 md.2 (rep_r, rep_g, rep_b) rep_hex) st.pt,
               st.none_counts,
               st.rt_list ++ trs_sorted.filterMap (fun t => t.response_ms),
               st.scores ++ [md.1]⟩
    else
      .ok ⟨dictSet (renderKey key)
             (.no_color_present trs_sorted.length missing) st.pt,
           st.none_counts + 1, st.rt_list, st.scores⟩

/-- Source `statistics.mean` on the collected scores. -/
noncomputable def pymean (l : List ℝ) : ℝ := l.sum / l.length

/-- Source `statistics.median`: middle of the sorted values, or the mean of
the two middle values. -/
noncomputable def pymedian (l : List ℝ) : ℝ :=
  let s := List.insertionSort (fun a b : ℝ => a ≤ b) l
  let n := l.length
  if n % 2 = 1 then s.getD (n / 2) 0
  else (s.getD (n / 2 - 1) 0 + s.getD (n / 2) 0) / 2

/-- Source `statistics.pstdev`: population standard deviation. -/
noncomputable def pystdev (l : List ℝ) : ℝ :=
  Real.sqrt ((l.map (fun x => (x - pymean l) ^ 2)).sum / l.length)

/-- Python `int(statistics.mean(xs))` for integer `xs`: the exact mean
truncated toward zero, i.e. T-division of the sum by the count. -/
def pyIntMean (l : List Int) : Int := Int.tdiv l.sum l.length

/-- Participant summary of an `ok` analysis. -/
structure OkSummary where
  participant_score : ℝ
  cct_mean : ℝ
  cct_std : ℝ
  cct_median : ℝ
  n_valid_triggers : Nat
  n_no_color_triggers : Nat
  none_pct : ℚ
  rt_mean : Option Int
  diagnosis : String

/-- Participant-level summary: `insufficient_data` or `ok`. -/
inductive ParticipantSummary where
  | insufficient_data (n_valid_triggers : Nat) (n_no_color_triggers : Nat)
  | ok (s : OkSummary)

/-- Top-level result: the `{"error": "no_trials"}` shape or the
`{"per_trigger": ..., "participant": ...}` shape. -/
inductive AnalysisResult where
  | error_no_trials
  | result (per_trigger : List (String × PerTrigger)) (participant : ParticipantSummary)

/-- Participant-level aggregation after the loop (source lines 269-310). -/
noncomputable def finalize (gs : List (MetaVal × List Trial)) (st : LoopState)
    (min_triggers : Nat) (cutoff : ℝ) (aggregate_method : String) : AnalysisResult :=
  if st.scores.isEmpty ∨ st.scores.length < min_triggers then
    .result st.pt (.insufficient_data st.scores.length st.none_counts)
  else
    let participant_score :=
      if aggregate_method = "median" then pymedian st.scores else pymean st.scores
    let cct_mean := pymean st.scores
    let cct_std := if 1 < st.scores.length then pystdev st.scores else 0
    let cct_median := pymedian st.scores
    let none_pct := ((st.none_counts : ℚ) / (max 1 gs.length : ℚ)) * 100
    let rt_mean :=
      if st.rt_list.isEmpty then none else some (pyIntMean st.rt_list)
    .result st.pt
      (.ok ⟨participant_score, cct_mean, cct_std, cct_median,
            st.scores.length, st.none_counts, none_pct, rt_mean,
            if participant_score < cutoff then "synesthete" else "non_synesthete"⟩)

/-- Source `analyze_participant_logic(trials, min_triggers, cutoff,
aggregate_method)`.  The unused `test_type` and `db_session` parameters are
omitted.  A raised exception is `Except.error`. -/
noncomputable def analyze_participant_logic (trials : List Trial)
    (min_triggers : Nat) (cutoff : ℝ) (aggregate_method : String) :
    Except String AnalysisResult :=
  if trials.isEmpty then .ok .error_no_trials
  else
    match groupsOfE trials with
    | .error e => .error e
    | .ok gs =>
      match gs.foldlM processGroup ⟨[], 0, [], []⟩ with
      | .error e => .error e
      | .ok st => .ok (finalize gs st min_triggers cutoff aggregate_method)

/-- The `ok` participant summary of a result, when there is one. -/
def okOf : Except String AnalysisResult → Option OkSummary
  | .ok (.result _ (.ok s)) => some s
  | _ => none

/-- The per-trigger map of a result, when there is one. -/
def ptOf : Except String AnalysisResult → Option (List (String × PerTrigger))
  | .ok (.result pt _) => some pt
  | _ => none

/-- Latency contribution of one group to `rt_list`: the latencies of the
three considered trials, but only when the group passes both the
completeness gate and the color gate (the `ok` path of the loop). -/
def groupRt (g : MetaVal × List Trial) : List Int :=
  if g.2.length < 3 then []
  else if (missingOf g.2).isEmpty then
    (consideredOf g.2).filterMap (fun t => t.response_ms)
  else []

/-- The whole `rt_list` collected by the loop over the groups in order. -/
def rtOf (gs : List (MetaVal × List Trial)) : List Int :=
  (gs.map groupRt).flatten

/-- Modelled from the claim wording (not the source): the mean response
latency over all input trials that carried one, regardless of group status,
absent when none did.  Compared against the source's `rt_mean`. -/
def claimedRtMeanAllTrials (trials : List Trial) : Option Int :=
  let l := trials.filterMap (fun t => t.response_ms)
  if l.isEmpty then none else some (pyIntMean l)

/-- A trial with no direct channels and empty metadata (scenario C shape). -/
def blankTrial (t : Trial) : Prop :=
  t.selected_r = none ∧ t.selected_g = none ∧ t.selected_b = none ∧
    t.meta_json.getD [] = []

/-- Concatenation of the group member lists, in group order. -/
def groupsJoin (gs : List (MetaVal × List Trial)) : List Trial :=
  (gs.map Prod.snd).flatten

/-- Helper to build trials: id, stimulus, index, latency, r, g, b, meta. -/
def mkTrial (id stim idx rms r g b : Option Int)
    (meta : Option (List (String × MetaVal))) : Trial :=
  ⟨id, stim, idx, rms, r, g, b, meta⟩

/-- Placeholder summary for the extraction helpers below. -/
def defaultOkSummary : OkSummary := ⟨0, 0, 0, 0, 0, 0, 0, none, ""⟩

/-- Scenario-A-like input: one trigger, three complete colored trials. -/
def trialsA : List Trial :=
  [mkTrial (some 1) (some 1) (some 0) (some 500) (some 100) (some 150) (some 200) none,
   mkTrial (some 2) (some 1) (some 1) (some 550) (some 102) (some 148) (some 198) none,
   mkTrial (some 3) (some 1) (some 2) (some 520) (some 98) (some 152) (some 202) none]

/-- The ok summary of `trialsA` under the default parameters. -/
noncomputable def okSummaryA : OkSummary :=
  match okOf (analyze_participant_logic trialsA 1 135 "mean") with
  | some s => s
  | none => defaultOkSummary

/-- Input refuting claim C1: one ok group (latencies 500 each) plus one
incomplete group whose single trial carries latency 10000. -/
def trialsC1 : List Trial :=
  [mkTrial (some 1) (some 1) (some 0) (some 500) (some 10) (some 10) (some 10) none,
   mkTrial (some 2) (some 1) (some 1) (some 500) (some 10) (some 10) (some 10) none,
   mkTrial (some 3) (some 1) (some 2) (some 500) (some 10) (some 10) (some 10) none,
   mkTrial (some 4) (some 2) (some 0) (some 10000) (some 10) (some 10) (some 10) none]

/-- The groups of `trialsC1`. -/
def groupsC1 : List (MetaVal × List Trial) :=
  match groupsOfE trialsC1 with
  | .ok gs => gs
  | .error _ => []

/-- The ok summary of `trialsC1` under the default parameters. -/
noncomputable def okSummaryC1 : OkSummary :=
  match okOf (analyze_participant_logic trialsC1 1 135 "mean") with
  | some s => s
  | none => defaultOkSummary

/-- Scenario-C witness trials: blank, sharing stimulus id 7. -/
def blankT1 : Trial := mkTrial (some 1) (some 7) (some 0) none none none none none

/-- Second blank trial of the scenario-C witness. -/
def blankT2 : Trial := mkTrial (some 2) (some 7) (some 1) none none none none none

/-- Third blank trial of the scenario-C witness. -/
def blankT3 : Trial := mkTrial (some 3) (some 7) (some 2) none none none none none

/-- A trial carrying a valid hex color under the key `HEX`, a case variant
of the accepted key `hex`. -/
def trialHEX : Trial :=
  mkTrial none none none none none none none (some [("HEX", .str "ff0000")])

/-- Scenario-E trial: hex color under the exact key `selected_hex`. -/
def trialSelHex : Trial :=
  mkTrial none none none none none none none (some [("selected_hex", .str "#ff6496")])

/-- Witness input for the grouping claim: two trials with distinct keys. -/
def trialsC5 : List Trial :=
  [mkTrial (some 1) (some 4) none none none none none none,
   mkTrial (some 2) none none none none none none (some [("trigger", .str "A")])]

/-- A trial with no stimulus id and a non-empty object (dict) under the
metadata key `trigger`: its group key is unhashable, so `groups[key]`
raises. -/
def trialDictTrigger : Trial :=
  mkTrial (some 1) none none none none none none (some [("trigger", .obj [("x", 1)])])

/-- Input for claim C10: the no-color group keyed by integer stimulus id 1
is processed first, the ok group keyed by metadata trigger string "1"
second; both keys render to the string "1". -/
def trialsC10 : List Trial :=
  [mkTrial (some 1) (some 1) (some 0) none none none none none,
   mkTrial (some 2) (some 1) (some 1) none none none none none,
   mkTrial (some 3) (some 1) (some 2) none none none none none,
   mkTrial (some 4) none (some 0) none (some 10) (some 20) (some 30)
     (some [("trigger", .str "1")]),
   mkTrial (some 5) none (some 1) none (some 10) (some 20) (some 30)
     (some [("trigger", .str "1")]),
   mkTrial (some 6) none (some 2) none (some 10) (some 20) (some 30)
     (some [("trigger", .str "1")])]

/-- C6: for an empty trial list the analysis returns exactly the no-trials
terminal outcome (the single-field error shape), whatever the tunable
parameters. -/
theorem analyze_empty_no_trials (mt : Nat) (c : ℝ) (am : String) :
    analyze_participant_logic [] mt c am = .ok AnalysisResult.error_no_trials := rfl

/-- C8: the CIELUV distance is symmetric and zero on identical points. -/
theorem luv_distance_symm_ident (a b : ℝ × ℝ × ℝ) :
    luv_distance a b = luv_distance b a ∧ luv_distance a a = 0 := by
  constructor
  · unfold luv_distance
    congr 1
    ring
  · unfold luv_distance
    simp

/-- C10: in `trialsC10` the integer stimulus id 1 and the metadata trigger
string "1" form two distinct groups, both keys render to the string "1", the
published per-trigger map holds a single entry for "1" carrying the
later-processed group's (ok) result, and the participant summary still
counts one valid and one no-color trigger. -/
theorem per_trigger_key_collision :
    Except.map (fun gs => gs.map Prod.fst) (groupsOfE trialsC10) =
        .ok [MetaVal.num 1, MetaVal.str "1"] ∧
      (ptOf (analyze_participant_logic trialsC10 1 135 "mean")).map
          (List.map (fun kv => (kv.1, ptStatus kv.2))) = some [("1", "ok")] ∧
      (okOf (analyze_participant_logic trialsC10 1 135 "mean")).map
          (fun s => (s.n_valid_triggers, s.n_no_color_triggers)) = some (1, 1) :=
  ⟨rfl, rfl, rfl⟩

/-- C3 counterexample: a trial whose metadata holds the valid hex string
"ff0000" under the key `HEX` (a case variant of the accepted key `hex`)
resolves to no color, although the hex string itself decodes fine: key
matching is case-sensitive, not case-insensitive. -/
theorem hex_key_case_cex :
    trial_rgb_or_none trialHEX = none ∧
      hex_to_rgb (.str "ff0000") = some (255, 0, 0) :=
  ⟨rfl, by decide⟩

/-- C3 (amended): the hex step resolves exactly the case-sensitive keys of
`hexcOf`, in that priority order: for a trial without all three direct
channels whose chain value is truthy and decodes, the extractor returns the
decoded RGB. -/
theorem hex_extraction_exact_keys (t : Trial) (v : MetaVal) (rgb : Int × Int × Int)
    (hd : t.selected_r = none ∨ t.selected_g = none ∨ t.selected_b = none)
    (hv : hexcOf (t.meta_json.getD []) = some v)
    (ht : truthyV v = true)
    (hr : hex_to_rgb v = some rgb) :
    trial_rgb_or_none t = some rgb := by
  unfold trial_rgb_or_none
  rcases hsr : t.selected_r with _ | r <;> rcases hsg : t.selected_g with _ | g <;>
    rcases hsb : t.selected_b with _ | b <;>
      simp only [hv, ht, if_true, hr]
  exact absurd hd (by simp [hsr, hsg, hsb])

/-- C3 witness: metadata `{"selected_hex": "#ff6496"}` with no direct
channels resolves to (255, 100, 150). -/
theorem hex_extraction_exact_keys_witness :
    trial_rgb_or_none trialSelHex = some (255, 100, 150) :=
  hex_extraction_exact_keys trialSelHex (.str "#ff6496") (255, 100, 150)
    (Or.inl rfl) rfl (by decide) (by decide)

theorem blank_rgb (t : Trial) (h : blankTrial t) : trial_rgb_or_none t = none := by
  obtain ⟨hr, hg, hb, hm⟩ := h
  unfold trial_rgb_or_none
  rw [hr, hg, hb]
  simp only [hm]
  rfl

theorem blank_groupKey (t : Trial) (h : blankTrial t) :
    groupKey t =
      match t.stimulus_id with
      | some n => MetaVal.num n
      | none => MetaVal.str "__unknown__" := by
  obtain ⟨-, -, -, hm⟩ := h
  unfold groupKey
  cases hstim : t.stimulus_id with
  | none => simp only [hm]; rfl
  | some n => rfl

theorem blank_groupKey_not_obj (t : Trial) (h : blankTrial t) (o : List (String × Int)) :
    groupKey t ≠ .obj o := by
  rw [blank_groupKey t h]
  cases t.stimulus_id <;> simp

theorem groupStep_eq (gs : List (MetaVal × List Trial)) (t : Trial)
    (h : ∀ o, groupKey t ≠ .obj o) :
    groupStep gs t = .ok (groupInsert (groupKey t) t gs) := by
  unfold groupStep
  rcases hk : groupKey t with s | n | o
  · rfl
  · rfl
  · exact absurd hk (h o)

theorem filterMap_eq_map_of {α β : Type} (f : α → Option β) (g : α → β) (l : List α)
    (h : ∀ x ∈ l, f x = some (g x)) : l.filterMap f = l.map g := by
  induction l with
  | nil => rfl
  | cons x xs ih =>
    rw [List.filterMap_cons, h x (List.mem_cons_self x xs), List.map_cons,
      ih (fun y hy => h y (List.mem_cons_of_mem x hy))]

theorem mem_of_mem_consideredOf (trs : List Trial) (t : Trial)
    (h : t ∈ consideredOf trs) : t ∈ trs := by
  unfold consideredOf sortByIdx at h
  exact (List.perm_insertionSort _ trs).mem_iff.mp (List.mem_of_mem_take h)

theorem except_ok_bind {α β : Type} (a : α) (f : α → Except String β) :
    (Except.ok a >>= f : Except String β) = f a := rfl

/-- C2 (amended): three trials sharing one trigger, all without direct
channels and with empty metadata, give that group status
`no_color_present`; the participant summary is `insufficient_data` with 0
valid and 1 no-color trigger under the default parameters (no `none_pct`
field exists on that summary shape). -/
theorem blank_triple_insufficient (t1 t2 t3 : Trial)
    (hb1 : blankTrial t1) (hb2 : blankTrial t2) (hb3 : blankTrial t3)
    (hk2 : groupKey t2 = groupKey t1) (hk3 : groupKey t3 = groupKey t1) :
    analyze_participant_logic [t1, t2, t3] 1 135 "mean" =
      .ok (.result
        [(renderKey (groupKey t1),
          .no_color_present 3 ((sortByIdx [t1, t2, t3]).map (fun t => t.id)))]
        (.insufficient_data 0 1)) := by
  have gi2 : groupInsert (groupKey t1) t2 [(groupKey t1, [t1])] =
      [(groupKey t1, [t1, t2])] := by
    unfold groupInsert
    rw [if_pos rfl]
    rfl
  have gi3 : groupInsert (groupKey t1) t3 [(groupKey t1, [t1, t2])] =
      [(groupKey t1, [t1, t2, t3])] := by
    unfold groupInsert
    rw [if_pos rfl]
    rfl
  have e1 := groupStep_eq [] t1 (blank_groupKey_not_obj t1 hb1)
  have e2 := groupStep_eq [(groupKey t1, [t1])] t2 (blank_groupKey_not_obj t2 hb2)
  have e3 := groupStep_eq [(groupKey t1, [t1, t2])] t3 (blank_groupKey_not_obj t3 hb3)
  rw [hk2] at e2
  rw [hk3] at e3
  have hg : groupsOfE [t1, t2, t3] = .ok [(groupKey t1, [t1, t2, t3])] := by
    unfold groupsOfE
    rw [List.foldlM_cons, e1, except_ok_bind]
    show [t2, t3].foldlM groupStep [(groupKey t1, [t1])] = _
    rw [List.foldlM_cons, e2, except_ok_bind, gi2]
    rw [List.foldlM_cons, e3, except_ok_bind, gi3, List.foldlM_nil]
    rfl
  have hlen : (sortByIdx [t1, t2, t3]).length = 3 := by
    unfold sortByIdx
    rw [List.length_insertionSort]
    rfl
  have hcons : consideredOf [t1, t2, t3] = sortByIdx [t1, t2, t3] := by
    unfold consideredOf
    rw [← hlen, List.take_length]
  have hrgb : ∀ u ∈ consideredOf [t1, t2, t3], trial_rgb_or_none u = none := by
    intro u hu
    have hmem := mem_of_mem_consideredOf _ _ hu
    simp only [List.mem_cons, List.not_mem_nil, or_false] at hmem
    rcases hmem with rfl | rfl | rfl
    · exact blank_rgb _ hb1
    · exact blank_rgb _ hb2
    · exact blank_rgb _ hb3
  have hmiss : missingOf [t1, t2, t3] =
      (sortByIdx [t1, t2, t3]).map (fun t => t.id) := by
    unfold missingOf
    rw [← hcons]
    refine filterMap_eq_map_of _ _ _ (fun u hu => ?_)
    rw [hrgb u hu]
    rfl
  obtain ⟨a, b, c, habc⟩ := List.length_eq_three.mp hlen
  have hpg : processGroup ⟨[], 0, [], []⟩ (groupKey t1, [t1, t2, t3]) =
      .ok ⟨[(renderKey (groupKey t1),
             .no_color_present 3 ((sortByIdx [t1, t2, t3]).map (fun t => t.id)))],
           1, [], []⟩ := by
    simp only [processGroup]
    rw [if_neg (by simp : ¬ ([t1, t2, t3].length < 3))]
    rw [hmiss, habc, hcons, habc]
    rfl
  unfold analyze_participant_logic
  rw [if_neg (by simp : ¬ ([t1, t2, t3].isEmpty = true))]
  rw [hg]
  show (match List.foldlM processGroup ⟨[], 0, [], []⟩ [(groupKey t1, [t1, t2, t3])] with
    | Except.error e => Except.error e
    | Except.ok st =>
      Except.ok (finalize [(groupKey t1, [t1, t2, t3])] st 1 135 "mean")) = _
  rw [List.foldlM_cons, hpg, except_ok_bind, List.foldlM_nil]
  rfl

/-- C2 witness: the amended statement at three concrete blank trials
sharing stimulus id 7. -/
theorem blank_triple_insufficient_witness :
    analyze_participant_logic [blankT1, blankT2, blankT3] 1 135 "mean" =
      .ok (.result
        [(renderKey (groupKey blankT1),
          .no_color_present 3
            ((sortByIdx [blankT1, blankT2, blankT3]).map (fun t => t.id)))]
        (.insufficient_data 0 1)) :=
  blank_triple_insufficient blankT1 blankT2 blankT3
    ⟨rfl, rfl, rfl, rfl⟩ ⟨rfl, rfl, rfl, rfl⟩ ⟨rfl, rfl, rfl, rfl⟩ rfl rfl

theorem groupInsert_join (k : MetaVal) (t : Trial) (gs : List (MetaVal × List Trial)) :
    (groupsJoin (groupInsert k t gs)).Perm (t :: groupsJoin gs) := by
  induction gs with
  | nil => simp [groupInsert, groupsJoin]
  | cons g gs ih =>
    obtain ⟨k', ts⟩ := g
    by_cases hk : k' = k
    · simp only [groupInsert, if_pos hk, groupsJoin, List.map_cons, List.flatten_cons]
      rw [List.append_assoc]
      exact List.perm_middle
    · simp only [groupInsert, if_neg hk, groupsJoin, List.map_cons, List.flatten_cons]
      have := (ih.append_left ts).trans List.perm_middle
      simpa [groupsJoin] using this

theorem groupInsert_keyed (k : MetaVal) (t : Trial) (gs : List (MetaVal × List Trial))
    (hk : groupKey t = k) (h : ∀ g ∈ gs, ∀ u ∈ g.2, groupKey u = g.1) :
    ∀ g ∈ groupInsert k t gs, ∀ u ∈ g.2, groupKey u = g.1 := by
  induction gs with
  | nil =>
    intro g hg u hu
    simp only [groupInsert, List.mem_singleton] at hg
    subst hg
    simp only [List.mem_singleton] at hu
    subst hu
    exact hk
  | cons g0 gs ih =>
    obtain ⟨k', ts⟩ := g0
    intro g hg u hu
    by_cases hkk : k' = k
    · simp only [groupInsert, if_pos hkk, List.mem_cons] at hg
      rcases hg with rfl | hg
      · simp only [List.mem_append, List.mem_singleton] at hu
        rcases hu with hu | rfl
        · exact h (k', ts) (List.mem_cons_self _ _) u hu
        · rw [hk, hkk]
      · exact h g (List.mem_cons_of_mem _ hg) u hu
    · simp only [groupInsert, if_neg hkk, List.mem_cons] at hg
      rcases hg with rfl | hg
      · exact h (k', ts) (List.mem_cons_self _ _) u hu
      · exact ih (fun g2 hg2 => h g2 (List.mem_cons_of_mem _ hg2)) g hg u hu

theorem groupInsert_keys (k : MetaVal) (t : Trial) (gs : List (MetaVal × List Trial)) :
    (groupInsert k t gs).map Prod.fst =
      if k ∈ gs.map Prod.fst then gs.map Prod.fst else gs.map Prod.fst ++ [k] := by
  induction gs with
  | nil => simp [groupInsert]
  | cons g gs ih =>
    obtain ⟨k', ts⟩ := g
    by_cases hk : k' = k
    · simp [groupInsert, hk]
    · simp only [groupInsert, if_neg hk, List.map_cons, ih]
      by_cases hmem : k ∈ gs.map Prod.fst
      · simp [hmem, Ne.symm hk]
      · simp [hmem, Ne.symm hk]

theorem groupInsert_nodup (k : MetaVal) (t : Trial) (gs : List (MetaVal × List Trial))
    (h : (gs.map Prod.fst).Nodup) : ((groupInsert k t gs).map Prod.fst).Nodup := by
  rw [groupInsert_keys]
  by_cases hmem : k ∈ gs.map Prod.fst
  · rwa [if_pos hmem]
  · rw [if_neg hmem, List.nodup_append]
    refine ⟨h, List.nodup_singleton k, fun a ha hb => ?_⟩
    rw [List.mem_singleton] at hb
    subst hb
    exact hmem ha

theorem groupStep_ok (gs gs' : List (MetaVal × List Trial)) (t : Trial)
    (h : groupStep gs t = .ok gs') : gs' = groupInsert (groupKey t) t gs := by
  unfold groupStep at h
  rcases hk : groupKey t with s | n | o <;> rw [hk] at h
  · rw [← Except.ok.inj h]
  · rw [← Except.ok.inj h]
  · exact absurd h (by simp)

theorem foldlM_groupStep_spec (ts : List Trial) :
    ∀ acc gs, ts.foldlM groupStep acc = .ok gs →
      (groupsJoin gs).Perm (groupsJoin acc ++ ts) ∧
      ((∀ g ∈ acc, ∀ u ∈ g.2, groupKey u = g.1) → ∀ g ∈ gs, ∀ u ∈ g.2, groupKey u = g.1) ∧
      ((acc.map Prod.fst).Nodup → (gs.map Prod.fst).Nodup) := by
  induction ts with
  | nil =>
    intro acc gs h
    rw [List.foldlM_nil] at h
    obtain rfl : acc = gs := Except.ok.inj h
    exact ⟨by simp, fun h2 => h2, fun h3 => h3⟩
  | cons t ts ih =>
    intro acc gs h
    rw [List.foldlM_cons] at h
    rcases hstep : groupStep acc t with e | acc'
    · rw [hstep] at h
      exact Except.noConfusion h
    · rw [hstep, except_ok_bind] at h
      obtain rfl := groupStep_ok acc acc' t hstep
      obtain ⟨hperm, hkeyd, hnd⟩ := ih _ gs h
      refine ⟨?_, ?_, ?_⟩
      · refine hperm.trans ?_
        refine ((groupInsert_join (groupKey t) t acc).append_right ts).trans ?_
        exact List.perm_middle.symm
      · intro hbase
        exact hkeyd (groupInsert_keyed _ t acc rfl hbase)
      · intro hbase
        exact hnd (groupInsert_nodup _ t acc hbase)

theorem foldlM_groupStep_ok_of (ts : List Trial) :
    ∀ acc, (∀ t ∈ ts, ∀ o, groupKey t ≠ .obj o) →
      ∃ gs, ts.foldlM groupStep acc = .ok gs := by
  induction ts with
  | nil => exact fun acc _ => ⟨acc, rfl⟩
  | cons t ts ih =>
    intro acc h
    obtain ⟨gs, hgs⟩ := ih (groupInsert (groupKey t) t acc)
      (fun u hu => h u (List.mem_cons_of_mem _ hu))
    refine ⟨gs, ?_⟩
    rw [List.foldlM_cons, groupStep_eq acc t (h t (List.mem_cons_self _ _)),
      except_ok_bind, hgs]

/-- C5 counterexample: a trial with no stimulus id and a non-empty dict
under the metadata key `trigger` makes grouping raise
`TypeError: unhashable type` (the dict cannot be a dict key), so no trial
is assigned to any group and the analysis itself raises: grouping is not
total over all inputs. -/
theorem grouping_unhashable_cex :
    groupsOfE [trialDictTrigger] = .error unhashableMsg ∧
      analyze_participant_logic [trialDictTrigger] 1 135 "mean" =
        .error unhashableMsg :=
  ⟨rfl, rfl⟩

/-- C5 (amended): for every trial list in which no trial's group key
resolves to a metadata object (a dict), grouping succeeds and is a total
deterministic partition: the concatenation of the groups is a permutation
of the input trials, every member of a group carries that group's key
(stimulus id, else truthy metadata trigger, else truthy metadata stimulus,
else the sentinel, per `groupKey`), and no two groups share a key. -/
theorem grouping_partition_of_hashable (trials : List Trial)
    (h : ∀ t ∈ trials, ∀ o, groupKey t ≠ .obj o) :
    ∃ gs, groupsOfE trials = .ok gs ∧
      (groupsJoin gs).Perm trials ∧
      (∀ g ∈ gs, ∀ t ∈ g.2, groupKey t = g.1) ∧
      ((gs.map Prod.fst).Nodup) := by
  obtain ⟨gs, hgs⟩ := foldlM_groupStep_ok_of trials [] h
  obtain ⟨hp, hk, hn⟩ := foldlM_groupStep_spec trials [] gs hgs
  refine ⟨gs, hgs, ?_, hk (by simp), hn (by simp)⟩
  simpa [groupsJoin] using hp

/-- C5 witness: the partition properties at a concrete two-trial input
with distinct, hashable keys. -/
theorem grouping_partition_of_hashable_witness :
    ∃ gs, groupsOfE trialsC5 = .ok gs ∧
      (groupsJoin gs).Perm trialsC5 ∧
      (∀ g ∈ gs, ∀ t ∈ g.2, groupKey t = g.1) ∧
      ((gs.map Prod.fst).Nodup) :=
  grouping_partition_of_hashable trialsC5 (by
    intro t ht o
    simp only [trialsC5, List.mem_cons, List.not_mem_nil, or_false] at ht
    rcases ht with rfl | rfl
    · intro hco
      exact MetaVal.noConfusion hco
    · intro hco
      exact MetaVal.noConfusion hco)

theorem mapM_rgb_ok (l : List Trial) (h : ∀ t ∈ l, trial_rgb_or_none t ≠ none) :
    ∃ rgbs : List (Int × Int × Int),
      l.mapM (fun t =>
        match trial_rgb_or_none t with
        | some rgb => Except.ok rgb
        | none => Except.error unpackNoneMsg) = .ok rgbs ∧ rgbs.length = l.length := by
  induction l with
  | nil => exact ⟨[], rfl, rfl⟩
  | cons t ts ih =>
    obtain ⟨rgbs, hok, hlen⟩ := ih (fun u hu => h u (List.mem_cons_of_mem _ hu))
    rcases hrgb : trial_rgb_or_none t with _ | rgb
    · exact absurd hrgb (h t (List.mem_cons_self _ _))
    · refine ⟨rgb :: rgbs, ?_, by simp [hlen]⟩
      simp only [List.mapM_cons, hrgb, hok]
      rfl

theorem processGroup_rt (st : LoopState) (g : MetaVal × List Trial) :
    ∃ st', processGroup st g = .ok st' ∧ st'.rt_list = st.rt_list ++ groupRt g := by
  obtain ⟨k, trs⟩ := g
  by_cases hlen : trs.length < 3
  · refine ⟨⟨dictSet (renderKey k) (.incomplete trs.length) st.pt,
        st.none_counts, st.rt_list, st.scores⟩, ?_, ?_⟩
    · simp only [processGroup]
      rw [if_pos hlen]
    · simp [groupRt, hlen]
  · by_cases hmiss : (missingOf trs).isEmpty = true
    · have hall : ∀ t ∈ consideredOf trs, trial_rgb_or_none t ≠ none := by
        intro t htm hnone
        have h0 : missingOf trs = [] := List.isEmpty_iff.mp hmiss
        have h1 := (List.filterMap_eq_nil_iff.mp h0) t htm
        rw [hnone] at h1
        simp at h1
      obtain ⟨rgbs, hok, hlenr⟩ := mapM_rgb_ok (consideredOf trs) hall
      have hlen3 : (consideredOf trs).length = 3 := by
        unfold consideredOf sortByIdx
        rw [List.length_take, List.length_insertionSort]
        omega
      have hluv3 : (rgbs.map rgb255_to_luv).length = 3 := by
        rw [List.length_map, hlenr, hlen3]
      obtain ⟨a, b, c, habc⟩ := List.length_eq_three.mp hluv3
      refine ⟨⟨dictSet (renderKey k)
            (.ok ((luv_distance a b + luv_distance b c + luv_distance c a) / 3)
              (luv_distance a b, luv_distance b c, luv_distance c a)
              (pyRound (((rgbs.map (fun x => x.1)).sum : ℚ) / 3),
               pyRound (((rgbs.map (fun x => x.2.1)).sum : ℚ) / 3),
               pyRound (((rgbs.map (fun x => x.2.2)).sum : ℚ) / 3))
              ("#" ++ hex2 (pyRound (((rgbs.map (fun x => x.1)).sum : ℚ) / 3)) ++
                hex2 (pyRound (((rgbs.map (fun x => x.2.1)).sum : ℚ) / 3)) ++
                hex2 (pyRound (((rgbs.map (fun x => x.2.2)).sum : ℚ) / 3)))) st.pt,
          st.none_counts,
          st.rt_list ++ (consideredOf trs).filterMap (fun t => t.response_ms),
          st.scores ++ [(luv_distance a b + luv_distance b c + luv_distance c a) / 3]⟩,
        ?_, ?_⟩
      · simp only [processGroup, hmiss, hok, habc]
        rw [if_neg hlen]
        simp [mean_pairwise_distance, Function.comp]
        rfl
      · simp [groupRt, hlen, hmiss]
    · refine ⟨⟨dictSet (renderKey k)
            (.no_color_present (consideredOf trs).length (missingOf trs)) st.pt,
          st.none_counts + 1, st.rt_list, st.scores⟩, ?_, ?_⟩
      · simp only [processGroup, hmiss]
        rw [if_neg hlen]
        simp
      · simp [groupRt, hlen, hmiss]

theorem foldlM_processGroup_rt (gs : List (MetaVal × List Trial)) :
    ∀ st, ∃ st', gs.foldlM processGroup st = .ok st' ∧
      st'.rt_list = st.rt_list ++ rtOf gs := by
  induction gs with
  | nil => exact fun st => ⟨st, rfl, by simp [rtOf]⟩
  | cons g gs ih =>
    intro st
    obtain ⟨st1, h1, hrt1⟩ := processGroup_rt st g
    obtain ⟨st2, h2, hrt2⟩ := ih st1
    refine ⟨st2, ?_, ?_⟩
    · rw [List.foldlM_cons, h1, except_ok_bind, h2]
    · rw [hrt2, hrt1, List.append_assoc]
      simp [rtOf]

theorem foldlM_groupStep_error (ts : List Trial) :
    ∀ acc e, ts.foldlM groupStep acc = .error e → e = unhashableMsg := by
  induction ts with
  | nil =>
    intro acc e h
    rw [List.foldlM_nil] at h
    exact Except.noConfusion h
  | cons t ts ih =>
    intro acc e h
    rw [List.foldlM_cons] at h
    rcases hstep : groupStep acc t with e' | acc'
    · rw [hstep] at h
      have he' : e' = unhashableMsg := by
        unfold groupStep at hstep
        rcases hk : groupKey t with s | n | o <;> rw [hk] at hstep
        · exact Except.noConfusion hstep
        · exact Except.noConfusion hstep
        · exact (Except.error.inj hstep).symm
      exact (Except.error.inj h) ▸ he'
    · rw [hstep, except_ok_bind] at h
      exact ih acc' e h

theorem groupsOfE_error (trials : List Trial) (e : String)
    (h : groupsOfE trials = .error e) : e = unhashableMsg :=
  foldlM_groupStep_error trials [] e h

/-- C7: the consistency metric fails exactly when given other than three
points, and that failure is unreachable through the public entry point
(grouping only forwards, to the metric, the three considered trials of a
group that passed the completeness and color gates). -/
theorem pairwise_three_invariant :
    (∀ l : List (ℝ × ℝ × ℝ),
        mean_pairwise_distance l = .error needThreeMsg ↔ l.length ≠ 3) ∧
      ∀ (trials : List Trial) (mt : Nat) (c : ℝ) (am : String),
        analyze_participant_logic trials mt c am ≠ .error needThreeMsg := by
  constructor
  · intro l
    rcases l with _ | ⟨a, _ | ⟨b, _ | ⟨c, _ | ⟨d, rest⟩⟩⟩⟩ <;>
      simp [mean_pairwise_distance]
  · intro trials mt c am hcon
    unfold analyze_participant_logic at hcon
    by_cases he : trials.isEmpty = true
    · rw [if_pos he] at hcon
      exact Except.noConfusion hcon
    · rw [if_neg he] at hcon
      rcases hg : groupsOfE trials with e | gs <;> rw [hg] at hcon
      · have hmsg : e = unhashableMsg := groupsOfE_error trials e hg
        subst hmsg
        exact absurd (Except.error.inj hcon) (by decide)
      · obtain ⟨st, hf, -⟩ := foldlM_processGroup_rt gs ⟨[], 0, [], []⟩
        have hcon2 : (match List.foldlM processGroup ⟨[], 0, [], []⟩ gs with
            | Except.error e => (Except.error e : Except String AnalysisResult)
            | Except.ok st => Except.ok (finalize gs st mt c am)) =
            .error needThreeMsg := hcon
        rw [hf] at hcon2
        exact Except.noConfusion hcon2


theorem analyze_ok_extract (trials : List Trial) (mt : Nat) (c : ℝ) (am : String)
    (s : OkSummary)
    (hs : okOf (analyze_participant_logic trials mt c am) = some s) :
    ∃ gs st, groupsOfE trials = .ok gs ∧
      List.foldlM processGroup ⟨[], 0, [], []⟩ gs = .ok st ∧
      s = ⟨if am = "median" then pymedian st.scores else pymean st.scores,
           pymean st.scores,
           if 1 < st.scores.length then pystdev st.scores else 0,
           pymedian st.scores,
           st.scores.length,
           st.none_counts,
           ((st.none_counts : ℚ) / (max 1 gs.length : ℚ)) * 100,
           if st.rt_list.isEmpty = true then none else some (pyIntMean st.rt_list),
           if (if am = "median" then pymedian st.scores else pymean st.scores) < c
             then "synesthete" else "non_synesthete"⟩ := by
  unfold analyze_participant_logic at hs
  by_cases he : trials.isEmpty = true
  · rw [if_pos he] at hs
    exact Option.noConfusion hs
  · rw [if_neg he] at hs
    rcases hg : groupsOfE trials with e | gs <;> rw [hg] at hs
    · exact Option.noConfusion hs
    · have hs2 : okOf (match List.foldlM processGroup ⟨[], 0, [], []⟩ gs with
          | Except.error e => (Except.error e : Except String AnalysisResult)
          | Except.ok st => Except.ok (finalize gs st mt c am)) = some s := hs
      rcases hf : List.foldlM processGroup ⟨[], 0, [], []⟩ gs with e | st <;>
        rw [hf] at hs2
      · exact Option.noConfusion hs2
      · have hs3 : okOf (Except.ok (finalize gs st mt c am)) = some s := hs2
        unfold finalize at hs3
        by_cases hins : st.scores.isEmpty = true ∨ st.scores.length < mt
        · rw [if_pos hins] at hs3
          exact Option.noConfusion hs3
        · rw [if_neg hins] at hs3
          exact ⟨gs, st, rfl, hf, (Option.some.inj hs3).symm⟩

/-- C1 (amended): in an ok participant summary, `rt_mean` is the truncated
mean of the latencies carried by the three considered trials of the groups
that reached the ok path (complete and fully colored); trials of incomplete
or no-color groups, and extras beyond the considered three, contribute
nothing; the field is absent when no contributing trial carried a latency. -/
theorem rt_mean_ok_groups_only (trials : List Trial) (mt : Nat) (c : ℝ) (am : String)
    (gs : List (MetaVal × List Trial)) (s : OkSummary)
    (hg : groupsOfE trials = .ok gs)
    (hs : okOf (analyze_participant_logic trials mt c am) = some s) :
    s.rt_mean = if (rtOf gs).isEmpty then none else some (pyIntMean (rtOf gs)) := by
  obtain ⟨gs2, st, hg2, hf, rfl⟩ := analyze_ok_extract trials mt c am s hs
  rw [hg] at hg2
  obtain rfl : gs = gs2 := Except.ok.inj hg2
  obtain ⟨st2, hf2, hrt⟩ := foldlM_processGroup_rt gs ⟨[], 0, [], []⟩
  obtain rfl : st = st2 := Except.ok.inj (hf.symm.trans hf2)
  have hrt2 : st.rt_list = rtOf gs := by simpa using hrt
  show (if st.rt_list.isEmpty = true then none else some (pyIntMean st.rt_list)) = _
  rw [hrt2]

/-- C1 counterexample: on `trialsC1` (one ok group with latencies 500 each,
one incomplete group with latency 10000) the code reports `rt_mean = 500`,
while the mean over all latency-carrying input trials would be 2875: the
incomplete group's latency is not included. -/
theorem rt_mean_counterexample :
    (okOf (analyze_participant_logic trialsC1 1 135 "mean")).map
        (fun s => s.rt_mean) = some (some 500) ∧
      claimedRtMeanAllTrials trialsC1 = some 2875 ∧
      (some (500 : Int) ≠ some (2875 : Int)) :=
  ⟨rfl, by decide, by decide⟩

/-- C1 witness: the amended statement evaluated on `trialsC1`. -/
theorem rt_mean_ok_groups_only_witness :
    okSummaryC1.rt_mean =
      if (rtOf groupsC1).isEmpty then none else some (pyIntMean (rtOf groupsC1)) :=
  rt_mean_ok_groups_only trialsC1 1 135 "mean" groupsC1 okSummaryC1 rfl rfl

/-- C4: whenever the analysis produces an ok participant summary, the
diagnosis is `synesthete` exactly when the aggregate score is strictly
below the cutoff; a score equal to the cutoff yields `non_synesthete`. -/
theorem diagnosis_strict_cutoff (trials : List Trial) (mt : Nat) (c : ℝ) (am : String)
    (s : OkSummary)
    (hs : okOf (analyze_participant_logic trials mt c am) = some s) :
    (s.diagnosis = "synesthete" ↔ s.participant_score < c) ∧
      (s.participant_score = c → s.diagnosis = "non_synesthete") := by
  obtain ⟨gs, st, -, -, rfl⟩ := analyze_ok_extract trials mt c am s hs
  constructor
  · show (if (if am = "median" then pymedian st.scores else pymean st.scores) < c
        then "synesthete" else "non_synesthete") = "synesthete" ↔
      (if am = "median" then pymedian st.scores else pymean st.scores) < c
    by_cases hlt : (if am = "median" then pymedian st.scores else pymean st.scores) < c
    · simp [hlt]
    · simp [hlt]
  · intro heq
    show (if (if am = "median" then pymedian st.scores else pymean st.scores) < c
        then "synesthete" else "non_synesthete") = "non_synesthete"
    have heq2 : (if am = "median" then pymedian st.scores else pymean st.scores) = c := heq
    rw [heq2, if_neg (lt_irrefl c)]

/-- C4 witness: the boundary property at the scenario-A input. -/
theorem diagnosis_strict_cutoff_witness :
    (okSummaryA.diagnosis = "synesthete" ↔ okSummaryA.participant_score < 135) ∧
      (okSummaryA.participant_score = 135 → okSummaryA.diagnosis = "non_synesthete") :=
  diagnosis_strict_cutoff trialsA 1 135 "mean" okSummaryA rfl

/-- C9: any aggregate_method other than the exact string "median" (for
example an unrecognized one) silently behaves as the arithmetic mean: the
whole result equals the "mean" run, and the aggregate score of an ok
summary equals its always-reported mean; no error is raised. -/
theorem unknown_aggregate_method_mean (trials : List Trial) (mt : Nat) (c : ℝ)
    (am : String) (h : am ≠ "median") :
    analyze_participant_logic trials mt c am =
        analyze_participant_logic trials mt c "mean" ∧
      ∀ s, okOf (analyze_participant_logic trials mt c am) = some s →
        s.participant_score = s.cct_mean := by
  have hfin : ∀ gs st, finalize gs st mt c am = finalize gs st mt c "mean" := by
    intro gs st
    unfold finalize
    by_cases hins : st.scores.isEmpty = true ∨ st.scores.length < mt
    · rw [if_pos hins, if_pos hins]
    · rw [if_neg hins, if_neg hins, if_neg h, if_neg (by decide : ¬ ("mean" = "median"))]
  constructor
  · unfold analyze_participant_logic
    by_cases he : trials.isEmpty = true
    · rw [if_pos he, if_pos he]
    · rw [if_neg he, if_neg he]
      rcases hg : groupsOfE trials with e | gs
      · rfl
      · show (match List.foldlM processGroup ⟨[], 0, [], []⟩ gs with
            | Except.error e => (Except.error e : Except String AnalysisResult)
            | Except.ok st => Except.ok (finalize gs st mt c am)) =
          (match List.foldlM processGroup ⟨[], 0, [], []⟩ gs with
            | Except.error e => (Except.error e : Except String AnalysisResult)
            | Except.ok st => Except.ok (finalize gs st mt c "mean"))
        rcases hf : List.foldlM processGroup ⟨[], 0, [], []⟩ gs with e | st
        · rfl
        · show Except.ok (finalize gs st mt c am) = Except.ok (finalize gs st mt c "mean")
          rw [hfin]
  · intro s hs
    obtain ⟨gs, st, -, -, rfl⟩ := analyze_ok_extract trials mt c am s hs
    show (if am = "median" then pymedian st.scores else pymean st.scores) =
      pymean st.scores
    rw [if_neg h]

/-- C9 witness: an unrecognized method string at the scenario-A input. -/
theorem unknown_aggregate_method_mean_witness :
    analyze_participant_logic trialsA 1 135 "average" =
        analyze_participant_logic trialsA 1 135 "mean" ∧
      ∀ s, okOf (analyze_participant_logic trialsA 1 135 "average") = some s →
        s.participant_score = s.cct_mean :=
  unknown_aggregate_method_mean trialsA 1 135 "average" (by decide)

/-- C2 counterexample: for three blank trials sharing stimulus id 7 under
the default parameters, the group is `no_color_present` but the participant
summary is `insufficient_data` (not an ok summary): no `none_pct` field
equal to 100.0 is produced. -/
theorem no_color_none_pct_cex :
    analyze_participant_logic [blankT1, blankT2, blankT3] 1 135 "mean" =
        .ok (.result [("7", .no_color_present 3 [some 1, some 2, some 3])]
          (.insufficient_data 0 1)) ∧
      okOf (analyze_participant_logic [blankT1, blankT2, blankT3] 1 135 "mean") =
        none :=
  ⟨rfl, rfl⟩
